import Mathlib

/-!
Shallow embedding of the Fastly WAF Event Correlation Engine
(`pkg/ece/ece.go` of scribd/fastly-waf-ece).

The engine is a keyed accumulation cache: syslog messages are classified
as WAF rule violations (`WafEntry`) or request summaries (`RequestEntry`),
accumulated per request id, and flushed as one merged `OutputEvent` when a
per-key TTL timer fires.  We embed the data model, the flush logic
(`WriteEvent`), the store operations (`RetrieveEvent` / `RemoveEvent`) and
the per-key eviction scheduling as an explicit transition system, and the
two partial helpers `strconv.Atoi` and `base64.StdEncoding.DecodeString`
as total Lean functions returning the same value/error information.
-/

/-- Embeds `WafEntry` (ece.go:30): one WAF rule-violation record.
The `eventType` discriminator and `requestId` key are carried verbatim. -/
structure WafEntry where
  eventType : String
  requestId : String
  ruleId : String
  severity : String
  anomalyScore : String
  logData : String
  wafMessage : String
deriving Repr, DecidableEq

/-- Embeds `RequestEntry` (ece.go:41): one request-summary record; all
fields are strings, exactly as in the Go struct. -/
structure RequestEntry where
  eventType : String
  serviceId : String
  requestId : String
  startTime : String
  fastlyInfo : String
  datacenter : String
  clientIp : String
  reqMethod : String
  reqURI : String
  reqHHost : String
  reqHUserAgent : String
  reqHAcceptEncoding : String
  reqHeaderBytes : String
  reqBodyBytes : String
  wafLogged : String
  wafBlocked : String
  wafFailures : String
  wafExecuted : String
  anomalyScore : String
  sqlInjectionScore : String
  rfiScore : String
  lfiScore : String
  rceScore : String
  phpInjectionScore : String
  sessionFixationScore : String
  httpViolationScore : String
  xssScore : String
  respStatus : String
  respBytes : String
  respHeaderBytes : String
  respBodyBytes : String
  throttlingRule : String
  tlsProtocol : String
  tlsCipher : String
deriving Repr, DecidableEq

/-- Embeds `OutputWaf` (ece.go:119): the per-violation detail object of
the merged output. -/
structure OutputWaf where
  ruleId : String
  severity : String
  anomalyScore : String
  logData : String
  wafMessage : String
deriving Repr, DecidableEq

/-- Embeds `OutputEvent` (ece.go:79), the marshal format of the merged
event.  Go slices can be `nil` or non-`nil`; `json.Marshal` renders the
former as `null` and the latter as a list, so the two slice-valued fields
are embedded as `Option (List _)` with `none` standing for the `nil`
slice. -/
structure OutputEvent where
  serviceId : String
  requestId : String
  startTime : String
  fastlyInfo : String
  datacenter : String
  clientIp : String
  reqMethod : String
  reqURI : String
  reqHHost : String
  reqHUserAgent : String
  reqHAcceptEncoding : String
  reqHeaderBytes : String
  reqBodyBytes : String
  ruleIds : Option (List Int)
  wafLogged : String
  wafBlocked : String
  wafFailures : String
  wafExecuted : String
  anomalyScore : String
  sqlInjectionScore : String
  rfiScore : String
  lfiScore : String
  rceScore : String
  phpInjectionScore : String
  sessionFixationScore : String
  httpViolationScore : String
  xssScore : String
  respStatus : String
  respBytes : String
  respHeaderBytes : String
  respBodyBytes : String
  wafEvents : Option (List OutputWaf)
  throttlingRule : String
  throttled : Int
  tlsProtocol : String
  tlsCipher : String
deriving Repr, DecidableEq

/-- The Go zero value of `OutputEvent` (`var outputEvent OutputEvent`,
ece.go:197): empty strings, `nil` slices, `0` for the int field. -/
def OutputEvent.zero : OutputEvent :=
  { serviceId := "", requestId := "", startTime := "", fastlyInfo := ""
    datacenter := "", clientIp := "", reqMethod := "", reqURI := ""
    reqHHost := "", reqHUserAgent := "", reqHAcceptEncoding := ""
    reqHeaderBytes := "", reqBodyBytes := "", ruleIds := none
    wafLogged := "", wafBlocked := "", wafFailures := "", wafExecuted := ""
    anomalyScore := "", sqlInjectionScore := "", rfiScore := ""
    lfiScore := "", rceScore := "", phpInjectionScore := ""
    sessionFixationScore := "", httpViolationScore := "", xssScore := ""
    respStatus := "", respBytes := "", respHeaderBytes := ""
    respBodyBytes := "", wafEvents := none, throttlingRule := ""
    throttled := 0, tlsProtocol := "", tlsCipher := "" }

instance : Inhabited OutputEvent := ⟨OutputEvent.zero⟩

/-- Embeds `Event` (ece.go:22): the per-key accumulator holding the
violations and summaries appended during the key's window.  The Go mutex
serialises appends; under the atomic-step interleaving model below it has
no observable effect and is dropped. -/
structure Event where
  wafEntries : List WafEntry
  requestEntries : List RequestEntry
deriving Repr, DecidableEq

/-- The empty accumulator inserted by `RetrieveEvent` on a miss
(`event = &Event{}`, ece.go:179). -/
def Event.empty : Event := ⟨[], []⟩

/-! ## strconv.Atoi -/

/-- Embeds Go's `strconv.Atoi`: optional single `+`/`-` sign, then one or
more decimal digits, no other characters; the result must fit a signed
64-bit int, otherwise `Atoi` reports `ErrRange`.  `none` is any non-nil
error return. -/
def goAtoi (s : String) : Option Int :=
  let (neg, ds) :=
    match s.data with
    | '-' :: rest => (true, rest)
    | '+' :: rest => (false, rest)
    | cs => (false, cs)
  if ds.isEmpty then none
  else if ds.all (fun c => c.isDigit) then
    let n : Nat := ds.foldl (fun a c => 10 * a + (c.toNat - 48)) 0
    let v : Int := if neg then -(n : Int) else (n : Int)
    if -(2 ^ 63) ≤ v ∧ v < 2 ^ 63 then some v else none
  else none

/-! ## base64.StdEncoding.DecodeString

Go's standard decoder processes the input in 4-character quantums,
skipping `\r` and `\n` anywhere, handling `=` padding only at the end of
the final quantum, and on the first corrupt character it returns the
bytes successfully decoded so far TOGETHER with a `CorruptInputError`.
`WriteEvent` discards the error (`decodedBytes, _ := ...`, ece.go:247),
so the decoded prefix — possibly non-empty — becomes the output field. -/

/-- The standard base64 alphabet value of a character, `none` when the
character is not in the alphabet (`decodeMap` of encoding/base64). -/
def b64Val (c : Char) : Option Nat :=
  if 'A' ≤ c ∧ c ≤ 'Z' then some (c.toNat - 65)
  else if 'a' ≤ c ∧ c ≤ 'z' then some (c.toNat - 97 + 26)
  else if '0' ≤ c ∧ c ≤ '9' then some (c.toNat - 48 + 52)
  else if c = '+' then some 62
  else if c = '/' then some 63
  else none

/-- Decodes a `\r`/`\n`-free character stream quantum by quantum,
returning the decoded bytes and whether decoding consumed the whole input
without error (Go's `Decode` loop over `decodeQuantum`).  On a corrupt
quantum the bytes of the preceding quantums (plus, for a padded final
quantum followed by trailing garbage, that quantum's bytes) are kept. -/
def b64Quantums : List Char → List Nat × Bool
  | [] => ([], true)
  | [_] => ([], false)
  | [_, _] => ([], false)
  | [_, _, _] => ([], false)
  | c0 :: c1 :: c2 :: c3 :: rest =>
    match b64Val c0, b64Val c1 with
    | some v0, some v1 =>
      if c2 = '=' then
        -- "xx==": one byte; anything after the padding is trailing garbage
        if c3 = '=' then
          (([v0 * 4 + v1 / 16] : List Nat), rest.isEmpty)
        else ([], false)
      else
        match b64Val c2 with
        | some v2 =>
          if c3 = '=' then
            -- "xxx=": two bytes; trailing input after padding is garbage
            (([v0 * 4 + v1 / 16, (v1 % 16) * 16 + v2 / 4] : List Nat), rest.isEmpty)
          else
            match b64Val c3 with
            | some v3 =>
              let (bs, ok) := b64Quantums rest
              ((v0 * 4 + v1 / 16) :: ((v1 % 16) * 16 + v2 / 4) ::
                ((v2 % 4) * 64 + v3) :: bs, ok)
            | none => ([], false)
        | none => ([], false)
    | _, _ => ([], false)

/-- Embeds `base64.StdEncoding.DecodeString` followed by `string(bytes)`:
`\r`/`\n` are skipped anywhere, then the quantum decoder runs; the first
component is the decoded byte string (the successfully decoded prefix when
the input is corrupt), the second is whether the input was valid. -/
def goBase64Decode (s : String) : String × Bool :=
  let (bytes, ok) := b64Quantums (s.data.filter (fun c => c ≠ '\n' ∧ c ≠ '\r'))
  (String.mk (bytes.map Char.ofNat), ok)

/-- The decoded logdata of one violation as computed by the flush loop
(ece.go:245-249): empty input is short-circuited to the empty string, any
other input is decoded with the error discarded. -/
def decodeLogData (s : String) : String :=
  if s = "" then "" else (goBase64Decode s).1

/-! ## The flush (WriteEvent) -/

/-- The detail object built for one violation in the flush loop
(ece.go:251-257). -/
def mkOutputWaf (w : WafEntry) : OutputWaf :=
  { ruleId := w.ruleId, severity := w.severity
    anomalyScore := w.anomalyScore, logData := decodeLogData w.logData
    wafMessage := w.wafMessage }

/-- Go's `append` on a possibly-`nil` slice: appending to `nil` allocates
a fresh one-element slice (ece.go:259). -/
def goSliceAppend {α : Type} (s : Option (List α)) (x : α) : Option (List α) :=
  match s with
  | none => some [x]
  | some xs => some (xs ++ [x])

/-- One insertion into the `ruleIds` deduplication map
(`ruleIds[wafEvent.RuleId] = 1`, ece.go:261), viewing the map as its key
list in first-insertion order. -/
def insertKey (m : List String) (k : String) : List String :=
  if k ∈ m then m else m ++ [k]

/-- The key set of the `ruleIds` map after the flush loop: the distinct
ruleId strings of the violations, in first-occurrence order.  Go iterates
the map in unspecified order; the embedding fixes first-insertion order,
and every claim about the keys is order-independent. -/
def ruleIdKeys (ws : List WafEntry) : List String :=
  ws.foldl (fun m w => insertKey m w.ruleId) []

/-- The conversion loop over the map keys (ece.go:267-277): each key is
parsed with `strconv.Atoi`; the first failure aborts `WriteEvent` with a
`ConversionError` naming the offending key. -/
def parseIds : List String → Except String (List Int)
  | [] => .ok []
  | id :: rest =>
    match goAtoi id with
    | none => .error id
    | some n =>
      match parseIds rest with
      | .error e => .error e
      | .ok ns => .ok (n :: ns)

/-- The summary-derived base of the output (ece.go:199-239): the first
`RequestEntry`'s fields copied verbatim when one exists, else the
key-only zero record. -/
def buildOutputBase (reqId : String) : List RequestEntry → OutputEvent
  | [] => { OutputEvent.zero with requestId := reqId }
  | r :: _ =>
    { OutputEvent.zero with
      serviceId := r.serviceId, requestId := r.requestId
      startTime := r.startTime, fastlyInfo := r.fastlyInfo
      datacenter := r.datacenter, clientIp := r.clientIp
      reqMethod := r.reqMethod, reqURI := r.reqURI
      reqHHost := r.reqHHost, reqHUserAgent := r.reqHUserAgent
      reqHAcceptEncoding := r.reqHAcceptEncoding
      reqHeaderBytes := r.reqHeaderBytes, reqBodyBytes := r.reqBodyBytes
      wafLogged := r.wafLogged, wafBlocked := r.wafBlocked
      wafFailures := r.wafFailures, wafExecuted := r.wafExecuted
      anomalyScore := r.anomalyScore
      sqlInjectionScore := r.sqlInjectionScore, rfiScore := r.rfiScore
      lfiScore := r.lfiScore, rceScore := r.rceScore
      phpInjectionScore := r.phpInjectionScore
      sessionFixationScore := r.sessionFixationScore
      httpViolationScore := r.httpViolationScore, xssScore := r.xssScore
      respStatus := r.respStatus, respBytes := r.respBytes
      respHeaderBytes := r.respHeaderBytes
      respBodyBytes := r.respBodyBytes
      throttlingRule := r.throttlingRule
      tlsCipher := r.tlsCipher, tlsProtocol := r.tlsProtocol }

/-- The throttled-flag update of the flush (ece.go:281-283): set
`throttled` to 1 when the output's throttling rule is non-empty. -/
def throttleApply (o : OutputEvent) : OutputEvent :=
  if o.throttlingRule ≠ "" then { o with throttled := 1 } else o

/-- The body of `WriteEvent` after the entry has been detached
(ece.go:197-294): build the base from the first summary, append one
detail object per violation (in order, to an initially `nil` slice),
parse the deduplicated ruleId strings, set `throttled`.  `.error id`
is the `ConversionError` return path, on which no line is written. -/
def processEvent (reqId : String) (e : Event) : Except String OutputEvent :=
  let base := buildOutputBase reqId e.requestEntries
  let withWafs : OutputEvent :=
    { base with
      wafEvents := e.wafEntries.foldl
        (fun s w => goSliceAppend s (mkOutputWaf w)) base.wafEvents }
  match parseIds (ruleIdKeys e.wafEntries) with
  | .error id => .error id
  | .ok ids => .ok (throttleApply { withWafs with ruleIds := some ids })

/-! ## The store and its operations -/

/-- The `Events map[string]*Event` store (ece.go:130), as a finite-support
map from request id to entry. -/
def Store : Type := String → Option Event

/-- The empty store (`make(map[string]*Event)`, ece.go:154). -/
def Store.empty : Store := fun _ => none

/-- Go's `delete(ece.Events, reqId)` (ece.go:301). -/
def deleteKey (events : Store) (reqId : String) : Store :=
  fun k => if k = reqId then none else events k

/-- Embeds `RemoveEvent` (ece.go:298-305): atomically detach and return
the entry (`none` when the key is absent — Go returns the `nil`
pointer). -/
def removeEvent (events : Store) (reqId : String) : Option Event × Store :=
  (events reqId, deleteKey events reqId)

/-- The outcome of one `WriteEvent` call.  `nilDeref` is the run-time
fault of ece.go:195: when `RemoveEvent` returned `nil` (key absent),
`event.mutex.Lock()` dereferences a nil pointer and the goroutine
panics.  `convError` is the `ConversionError` return (no line written);
`written` carries the single line appended to the sink. -/
inductive WriteResult where
  | nilDeref : WriteResult
  | convError (id : String) : WriteResult
  | written (line : OutputEvent) : WriteResult
deriving Repr, DecidableEq

/-- Embeds `WriteEvent` (ece.go:191-295): detach the entry via
`RemoveEvent`, then merge and emit.  The returned store is the store
after the detach. -/
def writeEvent (events : Store) (reqId : String) : WriteResult × Store :=
  let (entry, events') := removeEvent events reqId
  match entry with
  | none => (WriteResult.nilDeref, events')
  | some e =>
    match processEvent reqId e with
    | .error id => (WriteResult.convError id, events')
    | .ok out => (WriteResult.written out, events')

/-! ## Eviction scheduling as a transition system

`RetrieveEvent` (ece.go:162-188) inserts a fresh entry on a miss and
spawns exactly one `DelayNotify` goroutine for the key; `DelayNotify`
(ece.go:436-443) sleeps for the TTL and then calls `WriteEvent` once.
Both `AddEvent` paths (ece.go:308-350) retrieve-then-append.  The state
carries the store, the multiset of scheduled-but-unfired evictions, the
closed windows with how many output lines each emitted, the sink, and
whether a nil dereference has occurred. -/

structure EceState where
  events : Store
  pending : List String
  closed : List (String × Nat)
  outputs : List OutputEvent
  crashed : Bool

/-- The state of a freshly constructed engine (`NewECE`, ece.go:140). -/
def initState : EceState :=
  { events := Store.empty, pending := [], closed := [], outputs := []
    crashed := false }

/-- `RetrieveEvent` followed by the caller's append under the entry
lock: on a hit the entry is updated in place; on a miss an empty entry is
inserted, updated, and one eviction for the key is scheduled
(`go ece.DelayNotify(reqId)`, ece.go:184). -/
def retrieveStep (s : EceState) (reqId : String) (upd : Event → Event) : EceState :=
  match s.events reqId with
  | some e =>
    { s with events := fun k => if k = reqId then some (upd e) else s.events k }
  | none =>
    { s with
      events := fun k => if k = reqId then some (upd Event.empty) else s.events k
      pending := reqId :: s.pending }

/-- A scheduled `DelayNotify` for `reqId` fires: it is removed from the
pending multiset and `WriteEvent` runs.  A written line closes the
window with one emission, a `ConversionError` closes it with zero, and a
nil dereference crashes the process. -/
def fireStep (s : EceState) (reqId : String) : EceState :=
  match writeEvent s.events reqId with
  | (WriteResult.nilDeref, ev') =>
    { s with crashed := true, events := ev', pending := s.pending.erase reqId }
  | (WriteResult.convError _, ev') =>
    { s with events := ev', pending := s.pending.erase reqId,
             closed := s.closed ++ [(reqId, 0)] }
  | (WriteResult.written out, ev') =>
    { s with events := ev', pending := s.pending.erase reqId,
             closed := s.closed ++ [(reqId, 1)],
             outputs := s.outputs ++ [out] }

/-- One atomic step of the engine: `AddEvent` ingesting a violation,
`AddEvent` ingesting a summary, or a scheduled eviction firing. -/
inductive Step : EceState → EceState → Prop where
  | addWaf (s : EceState) (w : WafEntry) :
      Step s (retrieveStep s w.requestId
        (fun e => { e with wafEntries := e.wafEntries ++ [w] }))
  | addWeb (s : EceState) (r : RequestEntry) :
      Step s (retrieveStep s r.requestId
        (fun e => { e with requestEntries := e.requestEntries ++ [r] }))
  | fire (s : EceState) (reqId : String) (hp : reqId ∈ s.pending) :
      Step s (fireStep s reqId)

/-- States reachable from the fresh engine. -/
inductive Reachable : EceState → Prop where
  | init : Reachable initState
  | step {s s' : EceState} : Reachable s → Step s s' → Reachable s'

/-! ## JSON field lists and slice rendering -/

/-- The JSON keys emitted by `json.Marshal` for `OutputEvent`, in struct
order: every field carries a tag and none is `omitempty` (ece.go:79-116),
so every key is always present. -/
def outputEventJsonKeys : List String :=
  ["service_id", "request_id", "start_time", "fastly_info", "datacenter",
   "client_ip", "req_method", "req_uri", "req_h_host", "req_h_user_agent",
   "req_h_accept_encoding", "req_header_bytes", "req_body_bytes",
   "rule_ids", "waf_logged", "waf_blocked", "waf_failures", "waf_executed",
   "anomaly_score", "sql_injection_score", "rfi_score", "lfi_score",
   "rce_score", "php_injection_score", "session_fixation_score",
   "http_violation_score", "xss_score", "resp_status", "resp_bytes",
   "resp_header_bytes", "resp_body_bytes", "waf_events", "throttling_rule",
   "throttled", "tls_protocol", "tls_cipher"]

/-- The field-name list fixed by the spec's output boundary, from
`service_id` through `throttled` (spec §6). -/
def specOutputKeys : List String :=
  ["service_id", "request_id", "start_time", "fastly_info", "datacenter",
   "client_ip", "req_method", "req_uri", "req_h_host", "req_h_user_agent",
   "req_h_accept_encoding", "req_header_bytes", "req_body_bytes",
   "rule_ids", "waf_logged", "waf_blocked", "waf_failures", "waf_executed",
   "anomaly_score", "sql_injection_score", "rfi_score", "lfi_score",
   "rce_score", "php_injection_score", "session_fixation_score",
   "http_violation_score", "xss_score", "resp_status", "resp_bytes",
   "resp_header_bytes", "resp_body_bytes", "waf_events", "throttling_rule",
   "throttled"]

/-- `json.Marshal` of a possibly-`nil` int slice: `nil` renders as
`null`, a non-`nil` slice as a (possibly empty) JSON list. -/
def goJsonIntSlice : Option (List Int) → String
  | none => "null"
  | some xs => "[" ++ String.intercalate "," (xs.map toString) ++ "]"

/-- `json.Marshal` of a possibly-`nil` `OutputWaf` slice, to the same
`null` vs list distinction. -/
def goJsonWafSlice : Option (List OutputWaf) → String
  | none => "null"
  | some xs =>
    "[" ++ String.intercalate ","
      (xs.map (fun w =>
        "\x7b\x22rule_id\x22:\x22" ++ w.ruleId ++ "\x22\x7d")) ++ "]"

/-! ## Concrete sample records (used by witnesses and counterexamples) -/

/-- A concrete violation record with a chosen ruleId and logdata. -/
def sampleWaf (rid logdata : String) : WafEntry :=
  { eventType := "waf", requestId := "r1", ruleId := rid, severity := "99"
    anomalyScore := "0", logData := logdata, wafMessage := "m" }

/-- A concrete request summary with distinct values in every field. -/
def sampleWeb : RequestEntry :=
  { eventType := "req", serviceId := "svc", requestId := "r1"
    startTime := "st", fastlyInfo := "fi", datacenter := "dc"
    clientIp := "ip", reqMethod := "GET", reqURI := "/u", reqHHost := "h"
    reqHUserAgent := "ua", reqHAcceptEncoding := "ae"
    reqHeaderBytes := "100", reqBodyBytes := "200", wafLogged := "1"
    wafBlocked := "0", wafFailures := "0", wafExecuted := "1"
    anomalyScore := "3", sqlInjectionScore := "0", rfiScore := "0"
    lfiScore := "0", rceScore := "0", phpInjectionScore := "0"
    sessionFixationScore := "0", httpViolationScore := "0", xssScore := "0"
    respStatus := "403", respBytes := "10", respHeaderBytes := "4"
    respBodyBytes := "6", throttlingRule := "tr", tlsProtocol := "tls12"
    tlsCipher := "aes" }

/-- Two violations whose ruleId strings differ but denote the same
integer: dedup by string keeps both, so 0 appears twice in rule_ids. -/
def eventDupIds : Event := ⟨[sampleWaf "0" "", sampleWaf "00" ""], []⟩

/-- The flushed output for `eventDupIds`. -/
def outDupIds : OutputEvent :=
  (processEvent "r1" eventDupIds).toOption.getD OutputEvent.zero

/-- A violation whose logdata is corrupt base64 with a valid first
quantum: Go decodes the prefix "ABC" and discards the error. -/
def eventBadB64 : Event := ⟨[sampleWaf "0" "QUJD!"], []⟩

/-- An entry whose only violation has a non-numeric ruleId. -/
def eventBadRule : Event := ⟨[sampleWaf "x9" ""], []⟩

/-- An entry with one summary and two violations sharing a ruleId. -/
def eventFull : Event :=
  ⟨[sampleWaf "7" "QUJD", sampleWaf "7" ""], [sampleWeb]⟩

/-- The flushed output for `eventFull`. -/
def outFull : OutputEvent :=
  (processEvent "r1" eventFull).toOption.getD OutputEvent.zero

/-- An entry holding only summaries (no violations). -/
def eventNoWaf : Event := ⟨[], [sampleWeb]⟩

/-- The flushed output for `eventNoWaf`. -/
def outNoWaf : OutputEvent :=
  (processEvent "r1" eventNoWaf).toOption.getD OutputEvent.zero

/-- A store holding `eventNoWaf` under key "r1". -/
def storeNoWaf : Store :=
  fun k => if k = "r1" then some eventNoWaf else none

/-- A store holding `eventFull` under "r1", and a state about to flush it. -/
def storeFull : Store :=
  fun k => if k = "r1" then some eventFull else none

/-- A state whose store holds `eventFull` with its eviction pending. -/
def stateFull : EceState :=
  { events := storeFull, pending := ["r1"], closed := [], outputs := []
    crashed := false }

/-- A state whose store holds `eventBadRule` with its eviction pending. -/
def stateBadRule : EceState :=
  { events := fun k => if k = "r1" then some eventBadRule else none
    pending := ["r1"], closed := [], outputs := [], crashed := false }

/-- The reachable state after ingesting one violation into a fresh
engine (one `AddEvent` step). -/
def stateOneWaf : EceState :=
  retrieveStep initState (sampleWaf "0" "").requestId
    (fun e => { e with wafEntries := e.wafEntries ++ [sampleWaf "0" ""] })

example : goAtoi "0" = some 0 := by decide
example : goAtoi "00" = some 0 := by decide
example : goAtoi "-17" = some (-17) := by decide
example : goAtoi "x1" = none := by decide
example : goAtoi "" = none := by decide
example : goBase64Decode "QUJD" = ("ABC", true) := by decide
example : goBase64Decode "QUJD!" = ("ABC", false) := by decide
example : goBase64Decode "QQ==" = ("A", true) := by decide
example : goBase64Decode "QUI=" = ("AB", true) := by decide
example : decodeLogData "" = "" := by decide

/-! ## Helper lemmas -/

theorem foldl_goSliceAppend_some {α β : Type} (f : β → α) :
    ∀ (xs : List β) (acc : List α),
      xs.foldl (fun s b => goSliceAppend s (f b)) (some acc) = some (acc ++ xs.map f)
  | [], acc => by simp
  | x :: xs, acc => by
    rw [List.foldl_cons]
    show xs.foldl (fun s b => goSliceAppend s (f b)) (some (acc ++ [f x])) = _
    rw [foldl_goSliceAppend_some f xs]
    simp

theorem foldl_goSliceAppend_none {α β : Type} (f : β → α) (xs : List β) :
    xs.foldl (fun s b => goSliceAppend s (f b)) none =
      if xs.isEmpty then none else some (xs.map f) := by
  cases xs with
  | nil => simp
  | cons x xs =>
    rw [List.foldl_cons]
    show xs.foldl (fun s b => goSliceAppend s (f b)) (some [f x]) = _
    rw [foldl_goSliceAppend_some f xs]
    simp

theorem mem_foldl_insertKey (ws : List WafEntry) :
    ∀ (acc : List String) (s : String),
      (s ∈ ws.foldl (fun m w => insertKey m w.ruleId) acc ↔
        s ∈ acc ∨ s ∈ ws.map (fun w => w.ruleId)) := by
  induction ws with
  | nil => simp
  | cons w ws ih =>
    intro acc s
    rw [List.foldl_cons, ih]
    unfold insertKey
    by_cases hmem : w.ruleId ∈ acc
    · simp only [hmem, if_pos, List.map_cons, List.mem_cons]
      constructor
      · rintro (h | h)
        · exact Or.inl h
        · exact Or.inr (Or.inr h)
      · rintro (h | h | h)
        · exact Or.inl h
        · exact Or.inl (h ▸ hmem)
        · exact Or.inr h
    · simp only [hmem, if_neg, not_false_iff, List.mem_append,
        List.mem_singleton, List.map_cons, List.mem_cons]
      tauto

theorem nodup_foldl_insertKey (ws : List WafEntry) :
    ∀ (acc : List String), acc.Nodup →
      (ws.foldl (fun m w => insertKey m w.ruleId) acc).Nodup := by
  induction ws with
  | nil => intro acc h; simpa using h
  | cons w ws ih =>
    intro acc h
    rw [List.foldl_cons]
    apply ih
    unfold insertKey
    by_cases hmem : w.ruleId ∈ acc
    · simpa [hmem] using h
    · simp only [hmem, if_neg, not_false_iff]
      refine List.Nodup.append h (List.nodup_singleton _) ?_
      intro a ha hb
      exact hmem ((List.mem_singleton.mp hb) ▸ ha)

theorem mem_ruleIdKeys (ws : List WafEntry) (s : String) :
    s ∈ ruleIdKeys ws ↔ ∃ w ∈ ws, w.ruleId = s := by
  unfold ruleIdKeys
  rw [mem_foldl_insertKey]
  simp [List.mem_map, eq_comm]

theorem nodup_ruleIdKeys (ws : List WafEntry) : (ruleIdKeys ws).Nodup :=
  nodup_foldl_insertKey ws [] List.nodup_nil

theorem parseIds_ok_forall₂ :
    ∀ {keys : List String} {ids : List Int}, parseIds keys = .ok ids →
      List.Forall₂ (fun s n => goAtoi s = some n) keys ids := by
  intro keys
  induction keys with
  | nil => intro ids h; simp [parseIds] at h; simp [← h]
  | cons k keys ih =>
    intro ids h
    unfold parseIds at h
    cases ha : goAtoi k with
    | none => rw [ha] at h; exact absurd h (by simp)
    | some n =>
      rw [ha] at h
      cases hr : parseIds keys with
      | error e => rw [hr] at h; exact absurd h (by simp)
      | ok ns =>
        rw [hr] at h
        simp only [Except.ok.injEq] at h
        subst h
        exact List.Forall₂.cons ha (ih hr)

theorem parseIds_error_mem :
    ∀ {keys : List String} {id : String}, parseIds keys = .error id →
      id ∈ keys ∧ goAtoi id = none := by
  intro keys
  induction keys with
  | nil => intro id h; simp [parseIds] at h
  | cons k keys ih =>
    intro id h
    unfold parseIds at h
    cases ha : goAtoi k with
    | none =>
      rw [ha] at h
      simp only [Except.error.injEq] at h
      subst h
      exact ⟨List.mem_cons_self _ _, ha⟩
    | some n =>
      rw [ha] at h
      cases hr : parseIds keys with
      | error e =>
        rw [hr] at h
        simp only [Except.error.injEq] at h
        subst h
        have := ih hr
        exact ⟨List.mem_cons_of_mem _ this.1, this.2⟩
      | ok ns => rw [hr] at h; exact absurd h (by simp)

theorem parseIds_ok_of_forall :
    ∀ {keys : List String}, (∀ id ∈ keys, (goAtoi id).isSome) →
      ∃ ids, parseIds keys = .ok ids := by
  intro keys
  induction keys with
  | nil => intro _; exact ⟨[], rfl⟩
  | cons k keys ih =>
    intro h
    have hk := h k (List.mem_cons_self _ _)
    cases ha : goAtoi k with
    | none => rw [ha] at hk; simp at hk
    | some n =>
      obtain ⟨ids, hids⟩ := ih (fun id hid => h id (List.mem_cons_of_mem _ hid))
      exact ⟨n :: ids, by unfold parseIds; rw [ha, hids]⟩

theorem buildOutputBase_wafEvents (reqId : String) (rs : List RequestEntry) :
    (buildOutputBase reqId rs).wafEvents = none := by
  cases rs <;> rfl

theorem buildOutputBase_throttled (reqId : String) (rs : List RequestEntry) :
    (buildOutputBase reqId rs).throttled = 0 := by
  cases rs <;> rfl

theorem buildOutputBase_throttlingRule (reqId : String) (rs : List RequestEntry) :
    (buildOutputBase reqId rs).throttlingRule =
      (match rs with | [] => "" | r :: _ => r.throttlingRule) := by
  cases rs <;> rfl

theorem processEvent_eq_ok {reqId : String} {e : Event} {ids : List Int}
    (h : parseIds (ruleIdKeys e.wafEntries) = .ok ids) :
    processEvent reqId e = .ok
      (throttleApply
        { buildOutputBase reqId e.requestEntries with
          wafEvents := if e.wafEntries.isEmpty then none
            else some (e.wafEntries.map mkOutputWaf),
          ruleIds := some ids }) := by
  simp only [processEvent, buildOutputBase_wafEvents,
    foldl_goSliceAppend_none, h]

theorem processEvent_eq_error {reqId : String} {e : Event} {id : String}
    (h : parseIds (ruleIdKeys e.wafEntries) = .error id) :
    processEvent reqId e = .error id := by
  simp only [processEvent, h]

theorem forall₂_mem_left {α β : Type} {R : α → β → Prop} :
    ∀ {xs : List α} {ys : List β}, List.Forall₂ R xs ys →
      ∀ x ∈ xs, ∃ y, R x y := by
  intro xs ys h
  induction h with
  | nil => intro x hx; cases hx
  | cons hR _ ih =>
    intro x hx
    rcases List.mem_cons.mp hx with rfl | hx
    · exact ⟨_, hR⟩
    · exact ih x hx

theorem processEvent_error_iff (reqId : String) (e : Event) :
    (∃ id, processEvent reqId e = .error id) ↔
      ∃ id ∈ ruleIdKeys e.wafEntries, goAtoi id = none := by
  constructor
  · rintro ⟨id, h⟩
    cases hp : parseIds (ruleIdKeys e.wafEntries) with
    | error id' =>
      obtain ⟨hmem, hnone⟩ := parseIds_error_mem hp
      exact ⟨id', hmem, hnone⟩
    | ok ids => rw [processEvent_eq_ok hp] at h; exact absurd h (by simp)
  · rintro ⟨id, hmem, hnone⟩
    cases hp : parseIds (ruleIdKeys e.wafEntries) with
    | error id' => exact ⟨id', processEvent_eq_error hp⟩
    | ok ids =>
      obtain ⟨n, hn⟩ := forall₂_mem_left (parseIds_ok_forall₂ hp) id hmem
      rw [hnone] at hn
      cases hn

theorem writeEvent_of_none {events : Store} {reqId : String}
    (h : events reqId = none) :
    writeEvent events reqId = (WriteResult.nilDeref, deleteKey events reqId) := by
  simp only [writeEvent, removeEvent, h]

theorem writeEvent_of_some {events : Store} {reqId : String} {e : Event}
    (h : events reqId = some e) :
    writeEvent events reqId =
      ((match processEvent reqId e with
        | .error id => WriteResult.convError id
        | .ok out => WriteResult.written out), deleteKey events reqId) := by
  cases hp : processEvent reqId e <;>
    simp only [writeEvent, removeEvent, h, hp]

theorem throttleApply_eq (o : OutputEvent) :
    throttleApply o =
      { o with throttled := if o.throttlingRule ≠ "" then 1 else o.throttled } := by
  unfold throttleApply
  split <;> rfl

theorem throttleApply_ruleIds (o : OutputEvent) :
    (throttleApply o).ruleIds = o.ruleIds := by
  unfold throttleApply
  split <;> rfl

theorem throttleApply_wafEvents (o : OutputEvent) :
    (throttleApply o).wafEvents = o.wafEvents := by
  unfold throttleApply
  split <;> rfl

theorem writeEvent_of_ok {events : Store} {reqId : String} {e : Event}
    {out : OutputEvent} (he : events reqId = some e)
    (hp : processEvent reqId e = .ok out) :
    writeEvent events reqId =
      (WriteResult.written out, deleteKey events reqId) := by
  simp only [writeEvent, removeEvent, he, hp]

theorem writeEvent_of_error {events : Store} {reqId : String} {e : Event}
    {id : String} (he : events reqId = some e)
    (hp : processEvent reqId e = .error id) :
    writeEvent events reqId =
      (WriteResult.convError id, deleteKey events reqId) := by
  simp only [writeEvent, removeEvent, he, hp]

theorem deleteKey_self (events : Store) (reqId : String) :
    deleteKey events reqId reqId = none := by
  simp [deleteKey]

theorem deleteKey_other {events : Store} {reqId k : String} (h : k ≠ reqId) :
    deleteKey events reqId k = events k := by
  simp [deleteKey, h]

/-- The store/pending bookkeeping invariant: the scheduled evictions for
a key number exactly one while the key is present and zero while it is
absent; every closed window emitted at most one line; the process has
not crashed. -/
def EceInv (s : EceState) : Prop :=
  (∀ k, s.pending.count k = if (s.events k).isSome then 1 else 0) ∧
  (∀ w ∈ s.closed, w.2 ≤ 1) ∧
  s.crashed = false

theorem inv_init : EceInv initState := by
  refine ⟨fun k => ?_, ?_, rfl⟩
  · simp [initState, Store.empty]
  · intro w hw
    simp [initState] at hw

theorem inv_retrieve {s : EceState} (hi : EceInv s) (reqId : String)
    (upd : Event → Event) : EceInv (retrieveStep s reqId upd) := by
  obtain ⟨h1, h2, h3⟩ := hi
  cases he : s.events reqId with
  | some e =>
    rw [show retrieveStep s reqId upd =
      { s with events := fun k => if k = reqId then some (upd e) else s.events k }
      from by simp only [retrieveStep, he]]
    refine ⟨fun k => ?_, h2, h3⟩
    show s.pending.count k = _
    by_cases hk : k = reqId
    · subst hk
      rw [h1 k, he]
      simp
    · rw [h1 k]
      simp [hk]
  | none =>
    rw [show retrieveStep s reqId upd =
      { s with
        events := fun k => if k = reqId then some (upd Event.empty) else s.events k,
        pending := reqId :: s.pending }
      from by simp only [retrieveStep, he]]
    refine ⟨fun k => ?_, h2, h3⟩
    show (reqId :: s.pending).count k = _
    by_cases hk : k = reqId
    · subst hk
      rw [List.count_cons_self, h1 k, he]
      simp
    · rw [List.count_cons_of_ne hk, h1 k]
      simp [hk]

theorem inv_fire {s : EceState} (hi : EceInv s) {reqId : String}
    (hp : reqId ∈ s.pending) : EceInv (fireStep s reqId) := by
  obtain ⟨h1, h2, h3⟩ := hi
  have hpos : 0 < s.pending.count reqId := List.count_pos_iff.mpr hp
  cases he : s.events reqId with
  | none =>
    rw [h1 reqId, he] at hpos
    simp at hpos
  | some e =>
    have hcnt : s.pending.count reqId = 1 := by rw [h1 reqId, he]; rfl
    have hw := writeEvent_of_some he
    have hstore : ∀ k, (s.pending.erase reqId).count k =
        if (deleteKey s.events reqId k).isSome then 1 else 0 := by
      intro k
      by_cases hk : k = reqId
      · subst hk
        rw [List.count_erase_self, hcnt, deleteKey_self]
        rfl
      · rw [List.count_erase_of_ne hk, deleteKey_other hk, h1 k]
    have hclosed : ∀ (c : Nat), c ≤ 1 →
        ∀ w ∈ s.closed ++ [(reqId, c)], w.2 ≤ 1 := by
      intro c hc w hw'
      rcases List.mem_append.mp hw' with h | h
      · exact h2 w h
      · rw [List.mem_singleton.mp h]
        exact hc
    cases hpe : processEvent reqId e with
    | error id =>
      rw [hpe] at hw
      rw [show fireStep s reqId =
        { s with events := deleteKey s.events reqId,
                 pending := s.pending.erase reqId,
                 closed := s.closed ++ [(reqId, 0)] }
        from by simp only [fireStep, hw]]
      exact ⟨hstore, hclosed 0 (by decide), h3⟩
    | ok out =>
      rw [hpe] at hw
      rw [show fireStep s reqId =
        { s with events := deleteKey s.events reqId,
                 pending := s.pending.erase reqId,
                 closed := s.closed ++ [(reqId, 1)],
                 outputs := s.outputs ++ [out] }
        from by simp only [fireStep, hw]]
      exact ⟨hstore, hclosed 1 (by decide), h3⟩

theorem inv_step {s s' : EceState} (hi : EceInv s) (hs : Step s s') : EceInv s' := by
  cases hs with
  | addWaf w => exact inv_retrieve hi _ _
  | addWeb r => exact inv_retrieve hi _ _
  | fire reqId hp => exact inv_fire hi hp

theorem reachable_inv {s : EceState} (h : Reachable s) : EceInv s := by
  induction h with
  | init => exact inv_init
  | step _ hs ih => exact inv_step ih hs

/-! ## Claim theorems -/

/-- C1: in every reachable state of the step relation, a key present in
the store has exactly one pending eviction (and absent keys have none:
the pending count per key never exceeds one), and every closed TTL
window emitted at most one output line. -/
theorem eviction_exactly_once_invariant (s : EceState) (h : Reachable s) :
    (∀ k, (s.events k).isSome ↔ s.pending.count k = 1) ∧
    (∀ k, s.pending.count k ≤ 1) ∧
    (∀ w ∈ s.closed, w.2 ≤ 1) := by
  obtain ⟨h1, h2, _⟩ := reachable_inv h
  refine ⟨fun k => ?_, fun k => ?_, h2⟩
  · rw [h1 k]
    by_cases hk : (s.events k).isSome <;> simp [hk]
  · rw [h1 k]
    split <;> simp

/-- Witness for C1: the state after ingesting one violation into a fresh
engine is reachable and satisfies the invariant. -/
theorem eviction_exactly_once_invariant_witness :
    Reachable stateOneWaf ∧
    ((∀ k, (stateOneWaf.events k).isSome ↔ stateOneWaf.pending.count k = 1) ∧
     (∀ k, stateOneWaf.pending.count k ≤ 1) ∧
     (∀ w ∈ stateOneWaf.closed, w.2 ≤ 1)) :=
  have hr : Reachable stateOneWaf :=
    Reachable.step Reachable.init (Step.addWaf initState (sampleWaf "0" ""))
  ⟨hr, eviction_exactly_once_invariant stateOneWaf hr⟩

/-- C3 counterexample: invoking `WriteEvent` for an absent key does NOT
leave the process running — `RemoveEvent` returns the nil pointer and
`event.mutex.Lock()` (ece.go:195) dereferences it, so the call crashes
rather than being a safe no-op. -/
theorem flush_absent_key_counterexample :
    (writeEvent Store.empty "r1").1 = WriteResult.nilDeref := rfl

/-- C3 amended: flushing an absent key dereferences a nil entry (a
panic) — it writes no output line and leaves the store unchanged, but it
is not a safe no-op; in every reachable state of the engine, however,
the panic path never executes (no reachable state is crashed). -/
theorem flush_absent_key_nil_deref :
    (∀ (events : Store) (reqId : String), events reqId = none →
      (writeEvent events reqId).1 = WriteResult.nilDeref ∧
      ∀ k, (writeEvent events reqId).2 k = events k) ∧
    (∀ s, Reachable s → s.crashed = false) := by
  constructor
  · intro events reqId h
    rw [writeEvent_of_none h]
    refine ⟨rfl, fun k => ?_⟩
    by_cases hk : k = reqId
    · subst hk
      show deleteKey events k k = events k
      rw [deleteKey_self, h]
    · exact deleteKey_other hk
  · intro s hs
    exact (reachable_inv hs).2.2

/-- Witness for C3's amended theorem, at the empty store and the fresh
engine state. -/
theorem flush_absent_key_nil_deref_witness :
    ((writeEvent Store.empty "r1").1 = WriteResult.nilDeref ∧
      ∀ k, (writeEvent Store.empty "r1").2 k = Store.empty k) ∧
    initState.crashed = false :=
  ⟨flush_absent_key_nil_deref.1 Store.empty "r1" rfl,
   flush_absent_key_nil_deref.2 initState Reachable.init⟩

/-- C9 counterexample: the serialized output carries the JSON key
`tls_protocol`, which is not in the spec's fixed field list (the same
holds for `tls_cipher`). -/
theorem output_fields_counterexample :
    "tls_protocol" ∈ outputEventJsonKeys ∧
    "tls_protocol" ∉ specOutputKeys := by decide

/-- C9 amended: the serialized field set is exactly the spec's fixed
list from `service_id` through `throttled` FOLLOWED BY the two extra
keys `tls_protocol` and `tls_cipher` (every field of `OutputEvent` is
tagged and none is `omitempty`, so all keys are always emitted). -/
theorem output_fields_spec_plus_tls :
    outputEventJsonKeys = specOutputKeys ++ ["tls_protocol", "tls_cipher"] := rfl

/-- C2 counterexample: two violations whose ruleIds are the distinct
strings "0" and "00" both parse to the integer 0, and the emitted
rule_ids list is [0, 0] — the integer value 0 appears twice, so
duplicates are NOT collapsed by integer value. -/
theorem ruleIds_dedup_by_value_counterexample :
    outDupIds.ruleIds = some ([0, 0] : List Int) ∧
    ¬ ([0, 0] : List Int).Nodup :=
  ⟨rfl, by decide⟩

/-- C2 amended: the deduplication is by ruleId STRING, not by integer
value: the emitted rule_ids has exactly one element per distinct ruleId
string of the violations received before flush (each parsed with Atoi),
so two violations whose ruleId strings differ but parse to the same
integer contribute two equal integers. -/
theorem ruleIds_dedup_by_string (reqId : String) (e : Event)
    (out : OutputEvent) (h : processEvent reqId e = .ok out) :
    ∃ ids, out.ruleIds = some ids ∧
      List.Forall₂ (fun str n => goAtoi str = some n)
        (ruleIdKeys e.wafEntries) ids ∧
      (ruleIdKeys e.wafEntries).Nodup ∧
      (∀ str, str ∈ ruleIdKeys e.wafEntries ↔
        ∃ w ∈ e.wafEntries, w.ruleId = str) := by
  cases hp : parseIds (ruleIdKeys e.wafEntries) with
  | error id =>
    rw [processEvent_eq_error hp] at h
    exact absurd h (by simp)
  | ok ids =>
    rw [processEvent_eq_ok hp] at h
    simp only [Except.ok.injEq] at h
    subst h
    refine ⟨ids, ?_, parseIds_ok_forall₂ hp, nodup_ruleIdKeys _,
      fun str => mem_ruleIdKeys _ _⟩
    rw [throttleApply_ruleIds]

/-- Witness for C2's amended theorem at the concrete two-violation
entry. -/
theorem ruleIds_dedup_by_string_witness :
    processEvent "r1" eventDupIds = .ok outDupIds ∧
    ∃ ids, outDupIds.ruleIds = some ids ∧
      List.Forall₂ (fun str n => goAtoi str = some n)
        (ruleIdKeys eventDupIds.wafEntries) ids ∧
      (ruleIdKeys eventDupIds.wafEntries).Nodup ∧
      (∀ str, str ∈ ruleIdKeys eventDupIds.wafEntries ↔
        ∃ w ∈ eventDupIds.wafEntries, w.ruleId = str) :=
  ⟨rfl, ruleIds_dedup_by_string "r1" eventDupIds outDupIds rfl⟩

/-- C5: the emitted waf_events list holds exactly one detail object per
violation received before flush, in append order, never deduplicated, so
its length is the total violation count. -/
theorem flush_waf_events_one_per_violation (reqId : String) (e : Event)
    (out : OutputEvent) (h : processEvent reqId e = .ok out) :
    out.wafEvents.getD [] = e.wafEntries.map mkOutputWaf ∧
    (out.wafEvents.getD []).length = e.wafEntries.length := by
  cases hp : parseIds (ruleIdKeys e.wafEntries) with
  | error id =>
    rw [processEvent_eq_error hp] at h
    exact absurd h (by simp)
  | ok ids =>
    rw [processEvent_eq_ok hp] at h
    simp only [Except.ok.injEq] at h
    subst h
    refine ⟨?_, ?_⟩ <;> rw [throttleApply_wafEvents] <;>
      cases e.wafEntries <;> simp

/-- Witness for C5 at a concrete entry holding two violations with the
same ruleId (no deduplication of waf_events). -/
theorem flush_waf_events_one_per_violation_witness :
    processEvent "r1" eventFull = .ok outFull ∧
    (outFull.wafEvents.getD [] = eventFull.wafEntries.map mkOutputWaf ∧
     (outFull.wafEvents.getD []).length = eventFull.wafEntries.length) :=
  ⟨rfl, flush_waf_events_one_per_violation "r1" eventFull outFull rfl⟩

/-- C6 counterexample: the logData "QUJD!" is invalid base64 (the Go
decoder reports a CorruptInputError on it), yet its decoded output field
is the non-empty prefix "ABC", not the empty string. -/
theorem logdata_decode_counterexample :
    (goBase64Decode "QUJD!").2 = false ∧
    (processEvent "r1" eventBadB64).map
      (fun o => (o.wafEvents.getD []).map (fun v => v.logData)) =
      .ok ["ABC"] ∧
    ("ABC" : String) ≠ "" :=
  ⟨rfl, rfl, by decide⟩

/-- C6 amended: base64-decoding logData never causes a hard failure —
the flush result errs only on ruleId parsing, never on logData — and
empty logData decodes to the empty string; invalid base64 decodes to the
(possibly non-empty) prefix the decoder produced before the error. -/
theorem logdata_decode_never_fails_flush :
    (∀ (reqId : String) (e : Event),
      (∃ id, processEvent reqId e = .error id) ↔
        ∃ w ∈ e.wafEntries, goAtoi w.ruleId = none) ∧
    decodeLogData "" = "" ∧
    (∀ w : WafEntry, (mkOutputWaf w).logData = decodeLogData w.logData) := by
  refine ⟨fun reqId e => ?_, rfl, fun w => rfl⟩
  rw [processEvent_error_iff]
  constructor
  · rintro ⟨id, hmem, hnone⟩
    obtain ⟨w, hw, rfl⟩ := (mem_ruleIdKeys _ _).mp hmem
    exact ⟨w, hw, hnone⟩
  · rintro ⟨w, hw, hnone⟩
    exact ⟨w.ruleId, (mem_ruleIdKeys _ _).mpr ⟨w, hw, rfl⟩, hnone⟩

/-- C4: at flush, with at least one summary, every summary-derived
output field is the first summary's field copied verbatim, and the tail
of later summaries influences no output field; with zero summaries the
output carries only the key and all summary fields stay at their
defaults. -/
theorem flush_summary_fields_from_first (reqId : String) (e : Event)
    (out : OutputEvent) (h : processEvent reqId e = .ok out) :
    (∀ r rest, e.requestEntries = r :: rest →
      (out.serviceId = r.serviceId ∧ out.requestId = r.requestId ∧
       out.startTime = r.startTime ∧ out.fastlyInfo = r.fastlyInfo ∧
       out.datacenter = r.datacenter ∧ out.clientIp = r.clientIp ∧
       out.reqMethod = r.reqMethod ∧ out.reqURI = r.reqURI ∧
       out.reqHHost = r.reqHHost ∧ out.reqHUserAgent = r.reqHUserAgent ∧
       out.reqHAcceptEncoding = r.reqHAcceptEncoding ∧
       out.reqHeaderBytes = r.reqHeaderBytes ∧
       out.reqBodyBytes = r.reqBodyBytes ∧
       out.wafLogged = r.wafLogged ∧ out.wafBlocked = r.wafBlocked ∧
       out.wafFailures = r.wafFailures ∧ out.wafExecuted = r.wafExecuted ∧
       out.anomalyScore = r.anomalyScore ∧
       out.sqlInjectionScore = r.sqlInjectionScore ∧
       out.rfiScore = r.rfiScore ∧ out.lfiScore = r.lfiScore ∧
       out.rceScore = r.rceScore ∧
       out.phpInjectionScore = r.phpInjectionScore ∧
       out.sessionFixationScore = r.sessionFixationScore ∧
       out.httpViolationScore = r.httpViolationScore ∧
       out.xssScore = r.xssScore ∧ out.respStatus = r.respStatus ∧
       out.respBytes = r.respBytes ∧
       out.respHeaderBytes = r.respHeaderBytes ∧
       out.respBodyBytes = r.respBodyBytes ∧
       out.throttlingRule = r.throttlingRule ∧
       out.tlsProtocol = r.tlsProtocol ∧ out.tlsCipher = r.tlsCipher) ∧
      (∀ rest', processEvent reqId
        { e with requestEntries := r :: rest' } = .ok out)) ∧
    (e.requestEntries = [] →
      out.requestId = reqId ∧ out.serviceId = "" ∧ out.startTime = "" ∧
      out.fastlyInfo = "" ∧ out.datacenter = "" ∧ out.clientIp = "" ∧
      out.reqMethod = "" ∧ out.reqURI = "" ∧ out.reqHHost = "" ∧
      out.reqHUserAgent = "" ∧ out.reqHAcceptEncoding = "" ∧
      out.reqHeaderBytes = "" ∧ out.reqBodyBytes = "" ∧
      out.wafLogged = "" ∧ out.wafBlocked = "" ∧ out.wafFailures = "" ∧
      out.wafExecuted = "" ∧ out.anomalyScore = "" ∧
      out.sqlInjectionScore = "" ∧ out.rfiScore = "" ∧
      out.lfiScore = "" ∧ out.rceScore = "" ∧
      out.phpInjectionScore = "" ∧ out.sessionFixationScore = "" ∧
      out.httpViolationScore = "" ∧ out.xssScore = "" ∧
      out.respStatus = "" ∧ out.respBytes = "" ∧
      out.respHeaderBytes = "" ∧ out.respBodyBytes = "" ∧
      out.throttlingRule = "" ∧ out.tlsProtocol = "" ∧
      out.tlsCipher = "" ∧ out.throttled = 0) := by
  cases hp : parseIds (ruleIdKeys e.wafEntries) with
  | error id =>
    rw [processEvent_eq_error hp] at h
    exact absurd h (by simp)
  | ok ids =>
    rw [processEvent_eq_ok hp] at h
    simp only [Except.ok.injEq] at h
    subst h
    constructor
    · intro r rest hre
      constructor
      · rw [hre, throttleApply_eq]
        simp [buildOutputBase]
      · intro rest'
        rw [@processEvent_eq_ok reqId { e with requestEntries := r :: rest' } ids hp,
          hre]
        rfl
    · intro hre
      rw [hre, throttleApply_eq]
      simp [buildOutputBase, OutputEvent.zero]

/-- Witness for C4 at a concrete entry whose first (and only) summary is
`sampleWeb`: the output's serviceId is copied verbatim. -/
theorem flush_summary_fields_from_first_witness :
    processEvent "r1" eventFull = .ok outFull ∧
    eventFull.requestEntries = sampleWeb :: [] ∧
    outFull.serviceId = sampleWeb.serviceId :=
  ⟨rfl, rfl,
    (((flush_summary_fields_from_first "r1" eventFull outFull rfl).1
      sampleWeb [] rfl).1).1⟩

/-- C7: flushing a key whose violations contain a non-integer-parseable
ruleId returns a ConversionError and appends nothing to the sink — the
key's records are lost (the entry is already detached); when every
ruleId parses, the flush appends exactly one output line. -/
theorem flush_conversion_error_behavior (s : EceState) (reqId : String)
    (e : Event) (he : s.events reqId = some e) :
    ((∃ w ∈ e.wafEntries, goAtoi w.ruleId = none) →
      (∃ id, (writeEvent s.events reqId).1 = WriteResult.convError id) ∧
      (fireStep s reqId).outputs = s.outputs ∧
      (fireStep s reqId).events reqId = none) ∧
    ((∀ w ∈ e.wafEntries, (goAtoi w.ruleId).isSome) →
      ∃ out, (writeEvent s.events reqId).1 = WriteResult.written out ∧
        (fireStep s reqId).outputs = s.outputs ++ [out] ∧
        (fireStep s reqId).events reqId = none) := by
  constructor
  · rintro ⟨w, hwmem, hnone⟩
    obtain ⟨id, hid⟩ := (processEvent_error_iff reqId e).mpr
      ⟨w.ruleId, (mem_ruleIdKeys _ _).mpr ⟨w, hwmem, rfl⟩, hnone⟩
    have hwe := writeEvent_of_error he hid
    refine ⟨⟨id, by rw [hwe]⟩, ?_, ?_⟩
    · simp only [fireStep, hwe]
    · simp only [fireStep, hwe]
      exact deleteKey_self s.events reqId
  · intro hall
    have hkeys : ∀ id ∈ ruleIdKeys e.wafEntries, (goAtoi id).isSome := by
      intro id hid
      obtain ⟨w, hwmem, rfl⟩ := (mem_ruleIdKeys _ _).mp hid
      exact hall w hwmem
    obtain ⟨ids, hids⟩ := parseIds_ok_of_forall hkeys
    have hwe := writeEvent_of_ok he (@processEvent_eq_ok reqId e ids hids)
    refine ⟨_, by rw [hwe], ?_, ?_⟩
    · simp only [fireStep, hwe]
    · simp only [fireStep, hwe]
      exact deleteKey_self s.events reqId

/-- Witness for C7 at `stateFull`, whose violations all carry the
parseable ruleId "7": one line is appended to the sink. -/
theorem flush_conversion_error_behavior_witness :
    stateFull.events "r1" = some eventFull ∧
    (∀ w ∈ eventFull.wafEntries, (goAtoi w.ruleId).isSome) ∧
    ∃ out, (writeEvent stateFull.events "r1").1 = WriteResult.written out ∧
      (fireStep stateFull "r1").outputs = stateFull.outputs ++ [out] ∧
      (fireStep stateFull "r1").events "r1" = none :=
  ⟨rfl, by decide,
    (flush_conversion_error_behavior stateFull "r1" eventFull rfl).2
      (by decide)⟩

/-- C8: the emitted throttled flag is 1 exactly when the first
summary's throttling_rule is non-empty, and it is 0 otherwise — both
when the first summary's throttling_rule is empty and when no summary
was received. -/
theorem throttled_iff_first_summary_throttling_rule (reqId : String)
    (e : Event) (out : OutputEvent) (h : processEvent reqId e = .ok out) :
    (∀ r rest, e.requestEntries = r :: rest →
      (out.throttled = 1 ↔ r.throttlingRule ≠ "") ∧
      out.throttled = (if r.throttlingRule = "" then 0 else 1)) ∧
    (e.requestEntries = [] → out.throttled = 0) := by
  cases hp : parseIds (ruleIdKeys e.wafEntries) with
  | error id =>
    rw [processEvent_eq_error hp] at h
    exact absurd h (by simp)
  | ok ids =>
    rw [processEvent_eq_ok hp] at h
    simp only [Except.ok.injEq] at h
    subst h
    constructor
    · intro r rest hre
      rw [hre, throttleApply_eq]
      by_cases htr : r.throttlingRule = "" <;>
        simp [htr, buildOutputBase, OutputEvent.zero]
    · intro hre
      rw [hre, throttleApply_eq]
      simp [buildOutputBase, OutputEvent.zero]

/-- Witness for C8 at a concrete entry whose first summary carries the
non-empty throttling rule "tr". -/
theorem throttled_iff_first_summary_throttling_rule_witness :
    processEvent "r1" eventFull = .ok outFull ∧
    eventFull.requestEntries = sampleWeb :: [] ∧
    (outFull.throttled = 1 ↔ sampleWeb.throttlingRule ≠ "") ∧
    outFull.throttled = (if sampleWeb.throttlingRule = "" then 0 else 1) :=
  ⟨rfl, rfl,
    ((throttled_iff_first_summary_throttling_rule "r1" eventFull outFull
      rfl).1 sampleWeb [] rfl).1,
    ((throttled_iff_first_summary_throttling_rule "r1" eventFull outFull
      rfl).1 sampleWeb [] rfl).2⟩

/-- C10: flushing a key that accumulated zero violations always emits a
line whose rule_ids is the non-nil empty slice (serialized "[]": it is
built with `make`) while waf_events stays the nil slice (serialized
"null": it is only ever created by `append`). -/
theorem empty_waf_events_serializes_null (events : Store) (reqId : String)
    (rs : List RequestEntry) (he : events reqId = some ⟨[], rs⟩) :
    ∃ out, writeEvent events reqId =
        (WriteResult.written out, deleteKey events reqId) ∧
      out.ruleIds = some [] ∧ out.wafEvents = none ∧
      goJsonIntSlice out.ruleIds = "[]" ∧
      goJsonWafSlice out.wafEvents = "null" := by
  have hp : parseIds (ruleIdKeys (⟨[], rs⟩ : Event).wafEntries) = .ok [] := rfl
  have hw := writeEvent_of_ok he (@processEvent_eq_ok reqId ⟨[], rs⟩ [] hp)
  refine ⟨_, hw, ?_, ?_, ?_, ?_⟩ <;>
    simp only [throttleApply_ruleIds, throttleApply_wafEvents] <;> rfl

/-- Witness for C10 at a store holding a violation-free entry. -/
theorem empty_waf_events_serializes_null_witness :
    storeNoWaf "r1" = some ⟨[], [sampleWeb]⟩ ∧
    ∃ out, writeEvent storeNoWaf "r1" =
        (WriteResult.written out, deleteKey storeNoWaf "r1") ∧
      out.ruleIds = some [] ∧ out.wafEvents = none ∧
      goJsonIntSlice out.ruleIds = "[]" ∧
      goJsonWafSlice out.wafEvents = "null" :=
  ⟨rfl, empty_waf_events_serializes_null storeNoWaf "r1" [sampleWeb] rfl⟩
